import Mathlib

/-!
Verification of the DL-Art-School speech-synthesis training pipeline
(`codes/data/audio/paired_voice_audio_dataset.py`, `codes/models/steps/losses.py`,
`codes/models/gpt_voice/gpt_tts_hf.py`) against its natural-language specification.

The Python code is shallowly embedded: tensors become lists of integers
(one list per sequence position, integer channel entries), Python dicts become
association lists, raising an exception becomes returning `none` / `Except.error`,
and in-place tensor mutation becomes explicit state passing (the function returns
the post-state of the mutated tensor).  Components external to the three source
files (the BPE tokenizer, `torchaudio` decoding, `define_F`, `GANLoss`, the GPT-2
transformer body and the Mersenne-Twister pseudorandom stream) are abstracted as
parameters; everything written in the three files themselves is translated
directly.
-/

/-! ### String literals used by the embedded code (named to keep the text tidy) -/

def tabStr : String := "\t"

def slashStr : String := "/"

def clipsPrefix : String := "clips/"

def oggWavSuffix : String := ".ogg.wav"

def keyType : String := "type"

def keyCriterion : String := "criterion"

def keyWhichModelF : String := "which_model_F"

def keyLoadPath : String := "load_path"

def keyGanType : String := "gan_type"

def keyNoise : String := "noise"

def keyDetachReal : String := "detach_real"

def keyGenerator : String := "generator"

def keyPatchSize : String := "patch_size"

def keyOverlap : String := "overlap"

def tyPix : String := "pix"

def tyFeature : String := "feature"

def tyInterpretedFeature : String := "interpreted_feature"

def tyGeneratorGan : String := "generator_gan"

def tyDiscriminatorGan : String := "discriminator_gan"

def tyGeometric : String := "geometric"

def tyTranslational : String := "translational"

def nameL1 : String := "l1"

def nameL2 : String := "l2"

def nameCosine : String := "cosine"

def nameCharbonnier : String := "charbonnier"

/-! ### C1: `TextWavLoader.get_text`
(`paired_voice_audio_dataset.py` lines 113-121).

The tokenizer (BPE from a vocabulary file, or the character tokenizer from
`models.tacotron2.text`, both external to this file's logic) is abstracted as a
function `encode : String → List Int` standing for
`self.tokenizer.encode(..).ids`.  A failed `assert` raises, embedded as `none`.
-/

/-- Embedding of `TextWavLoader.get_text`: tokenize `text.strip().lower()`,
assert no token equals 1 when the BPE tokenizer is in use, assert no token
equals 0, and return the token sequence unchanged. -/
def get_text (useBpeTokenizer : Bool) (encode : String → List Int)
    (text : String) : Option (List Int) :=
  let tokens := encode text.trim.toLower
  if useBpeTokenizer && tokens.any (fun t => t == 1) then
    none
  else if tokens.any (fun t => t == 0) then
    none
  else
    some tokens

/-! ### C3: `extract_params_from_state` (`losses.py` lines 31-36).

`params` is either a single key or a list of keys (the `isinstance` test in the
source); `state` is the training-state dict, embedded as an association list.
A missing key raises `KeyError`, embedded as `none`.  The function is given the
state and hands it back unmodified, making the frame condition explicit. -/

/-- Parameter argument of `extract_params_from_state`: a bare key or a
list of keys, mirroring the `isinstance(params, list)` test. -/
inductive LossParams where
  | single (k : String)
  | many (ks : List String)

/-- Dict lookup `state[k]` on the training-state mapping. -/
def stateGet {V : Type} (state : List (String × V)) (k : String) : Option V :=
  (state.find? (fun p => p.1 == k)).map (fun p => p.2)

/-- The list comprehension `[state[r] for r in params]`: every key is looked
up in order; a missing key raises (`none`). -/
def lookupAll {V : Type} (state : List (String × V)) :
    List String → Option (List V)
  | [] => some []
  | k :: ks =>
    match stateGet state k with
    | none => none
    | some v => (lookupAll state ks).map (fun vs => v :: vs)

/-- Embedding of `extract_params_from_state`.  The second component of the
result is the training state after the call. -/
def extract_params_from_state {V : Type} (params : LossParams)
    (state : List (String × V)) : Option (List V) × List (String × V) :=
  match params with
  | .many ks => (lookupAll state ks, state)
  | .single k => ((stateGet state k).map (fun v => [v]), state)

/-! ### C4: seeded shuffle of the corpus pair list
(`paired_voice_audio_dataset.py` lines 75-93).

`TextWavLoader.__init__` concatenates the fetched manifests into
`audiopaths_and_text` and runs `random.seed(hparams.seed)` followed by
`random.shuffle(...)`.  Python's `random.shuffle` is the Fisher-Yates shuffle
driven by the Mersenne-Twister stream, a deterministic function of the seed;
the shuffle algorithm is embedded concretely and the pseudorandom stream is
modelled by a deterministic generator seeded with `hparams.seed` (which exact
stream is produced is irrelevant to the determinism property). -/

/-- One step of the deterministic pseudorandom generator standing in for the
seeded Mersenne Twister. -/
def lcgNext (s : Nat) : Nat := (1103515245 * s + 12345) % 2147483648

/-- Swap the entries at positions `i` and `j` of a list. -/
def swapL {α : Type} [Inhabited α] (l : List α) (i j : Nat) : List α :=
  (l.set i (l.getD j default)).set j (l.getD i default)

/-- Fisher-Yates loop of `random.shuffle`: for `i` from `len-1` down to `1`,
draw `j ≤ i` from the generator and swap positions `i` and `j`. -/
def shuffleIter {α : Type} [Inhabited α] (s : Nat) (l : List α) :
    Nat → List α
  | 0 => l
  | i + 1 =>
    let s2 := lcgNext s
    let j := s2 % (i + 2)
    shuffleIter s2 (swapL l (i + 1) j) i

/-- Embedding of `random.seed(seed); random.shuffle(l)`. -/
def pyShuffle {α : Type} [Inhabited α] (seed : Nat) (l : List α) : List α :=
  shuffleIter seed l (l.length - 1)

/-- The part of `TextWavLoader.__init__` that builds `audiopaths_and_text`:
the per-path fetched manifests are concatenated and shuffled under the
configured seed. -/
def TextWavLoader.initPairs (seed : Nat)
    (fetched : List (List (List String))) : List (List String) :=
  pyShuffle seed fetched.flatten

/-! ### C2: `create_loss` (`losses.py` lines 10-27) and the loss-class
constructors it dispatches to (lines 39-284).

A loss configuration dict is embedded as an association list of string keys to
values (strings or integers); `opt[k]` raises `KeyError` when `k` is absent.
The constructor of each loss class is embedded down to the code present in
`losses.py`: the criterion dispatch `get_basic_criterion_for_name` (lines
54-62, raising `NotImplementedError` on an unrecognized name), the unguarded
key reads, and the `assert(self.patch_size > self.overlap)` of
`TranslationInvarianceLoss`.  Construction steps that live outside this file
(`define_F`, `GANLoss`, `DataParallel`, `.to(device)`) are assumed to succeed
and the produced torch modules are not represented. -/

/-- Python exceptions raised by the embedded loss code. -/
inductive PyError where
  | notImplementedError
  | keyError
  | assertionError
  | typeError
deriving DecidableEq

/-- A configuration value: a string or an integer. -/
inductive CfgVal where
  | s (v : String)
  | i (v : Int)
deriving DecidableEq

/-- A loss configuration dict (`opt_loss`). -/
abbrev LossOpt := List (String × CfgVal)

/-- Guarded dict read: `opt[k] if k in opt.keys() else None`. -/
def lookupOpt (opt : LossOpt) (k : String) : Option CfgVal :=
  (opt.find? (fun p => p.1 == k)).map (fun p => p.2)

/-- Unguarded dict read `opt[k]`, raising `KeyError` when absent. -/
def getKey (opt : LossOpt) (k : String) : Except PyError CfgVal :=
  match lookupOpt opt k with
  | some v => .ok v
  | none => .error .keyError

/-- The three criteria recognized by `get_basic_criterion_for_name`. -/
inductive Criterion where
  | l1
  | l2
  | cosine
deriving DecidableEq

/-- Embedding of `get_basic_criterion_for_name` (`losses.py` lines 54-62). -/
def get_basic_criterion_for_name (name : CfgVal) : Except PyError Criterion :=
  if name = .s nameL1 then .ok .l1
  else if name = .s nameL2 then .ok .l2
  else if name = .s nameCosine then .ok .cosine
  else .error .notImplementedError

/-- Python `a > b` on configuration values: defined on two integers or two
strings, `TypeError` on mixed operands. -/
def cfgGt : CfgVal → CfgVal → Except PyError Bool
  | .i a, .i b => .ok (decide (b < a))
  | .s a, .s b => .ok (decide (b < a))
  | _, _ => .error .typeError

/-- An instance of one of the seven loss classes, carrying the configuration
fields its constructor reads. -/
inductive LossInstance where
  | pixLoss (criterion : Criterion)
  | featureLoss (criterion : Criterion) (whichModelF : CfgVal)
      (loadPath : Option CfgVal)
  | interpretedFeatureLoss (criterion : Criterion) (whichModelF : CfgVal)
      (loadPath : CfgVal)
  | generatorGanLoss (ganType : CfgVal) (noise : Option CfgVal)
      (detachReal : Option CfgVal)
  | discriminatorGanLoss (ganType : CfgVal) (noise : Option CfgVal)
  | geometricSimilarityGeneratorLoss (generator : CfgVal)
      (criterion : Criterion)
  | translationInvarianceLoss (generator : CfgVal) (criterion : Criterion)
      (patchSize : CfgVal) (overlap : CfgVal)
deriving DecidableEq

/-- The `type` string of the class an instance belongs to. -/
def LossInstance.classOf : LossInstance → String
  | .pixLoss _ => tyPix
  | .featureLoss _ _ _ => tyFeature
  | .interpretedFeatureLoss _ _ _ => tyInterpretedFeature
  | .generatorGanLoss _ _ _ => tyGeneratorGan
  | .discriminatorGanLoss _ _ => tyDiscriminatorGan
  | .geometricSimilarityGeneratorLoss _ _ => tyGeometric
  | .translationInvarianceLoss _ _ _ _ => tyTranslational

/-- Embedding of `PixLoss.__init__`: reads `opt['criterion']` and dispatches
it through `get_basic_criterion_for_name`. -/
def PixLoss.init (opt : LossOpt) : Except PyError LossInstance :=
  match getKey opt keyCriterion with
  | .error e => .error e
  | .ok c =>
    match get_basic_criterion_for_name c with
    | .error e => .error e
    | .ok crit => .ok (.pixLoss crit)

/-- Embedding of `FeatureLoss.__init__`: criterion, `opt['which_model_F']`,
and the guarded `load_path` read; `define_F` is external and assumed to
succeed. -/
def FeatureLoss.init (opt : LossOpt) : Except PyError LossInstance :=
  match getKey opt keyCriterion with
  | .error e => .error e
  | .ok c =>
    match get_basic_criterion_for_name c with
    | .error e => .error e
    | .ok crit =>
      match getKey opt keyWhichModelF with
      | .error e => .error e
      | .ok wm => .ok (.featureLoss crit wm (lookupOpt opt keyLoadPath))

/-- Embedding of `InterpretedFeatureLoss.__init__`: criterion,
`opt['which_model_F']`, and the unguarded `opt['load_path']` read. -/
def InterpretedFeatureLoss.init (opt : LossOpt) : Except PyError LossInstance :=
  match getKey opt keyCriterion with
  | .error e => .error e
  | .ok c =>
    match get_basic_criterion_for_name c with
    | .error e => .error e
    | .ok crit =>
      match getKey opt keyWhichModelF with
      | .error e => .error e
      | .ok wm =>
        match getKey opt keyLoadPath with
        | .error e => .error e
        | .ok lp => .ok (.interpretedFeatureLoss crit wm lp)

/-- Embedding of `GeneratorGanLoss.__init__`: `opt['gan_type']` (read by the
external `GANLoss`, assumed to succeed) plus the guarded `noise` and
`detach_real` reads. -/
def GeneratorGanLoss.init (opt : LossOpt) : Except PyError LossInstance :=
  match getKey opt keyGanType with
  | .error e => .error e
  | .ok gt =>
    .ok (.generatorGanLoss gt (lookupOpt opt keyNoise) (lookupOpt opt keyDetachReal))

/-- Embedding of `DiscriminatorGanLoss.__init__`. -/
def DiscriminatorGanLoss.init (opt : LossOpt) : Except PyError LossInstance :=
  match getKey opt keyGanType with
  | .error e => .error e
  | .ok gt => .ok (.discriminatorGanLoss gt (lookupOpt opt keyNoise))

/-- Embedding of `GeometricSimilarityGeneratorLoss.__init__`:
`opt['generator']` then the criterion dispatch. -/
def GeometricSimilarityGeneratorLoss.init (opt : LossOpt) :
    Except PyError LossInstance :=
  match getKey opt keyGenerator with
  | .error e => .error e
  | .ok gen =>
    match getKey opt keyCriterion with
    | .error e => .error e
    | .ok c =>
      match get_basic_criterion_for_name c with
      | .error e => .error e
      | .ok crit => .ok (.geometricSimilarityGeneratorLoss gen crit)

/-- Embedding of `TranslationInvarianceLoss.__init__`: `opt['generator']`,
criterion, `opt['patch_size']`, `opt['overlap']`, and the
`assert(self.patch_size > self.overlap)`. -/
def TranslationInvarianceLoss.init (opt : LossOpt) :
    Except PyError LossInstance :=
  match getKey opt keyGenerator with
  | .error e => .error e
  | .ok gen =>
    match getKey opt keyCriterion with
    | .error e => .error e
    | .ok c =>
      match get_basic_criterion_for_name c with
      | .error e => .error e
      | .ok crit =>
        match getKey opt keyPatchSize with
        | .error e => .error e
        | .ok ps =>
          match getKey opt keyOverlap with
          | .error e => .error e
          | .ok ov =>
            match cfgGt ps ov with
            | .error e => .error e
            | .ok true => .ok (.translationInvarianceLoss gen crit ps ov)
            | .ok false => .error .assertionError

/-- Embedding of `create_loss` (`losses.py` lines 10-27): dispatch on
`opt_loss['type']` over the seven loss kinds, raising `NotImplementedError`
for any other type string. -/
def create_loss (opt_loss : LossOpt) : Except PyError LossInstance :=
  match getKey opt_loss keyType with
  | .error e => .error e
  | .ok ty =>
    if ty = .s tyPix then PixLoss.init opt_loss
    else if ty = .s tyFeature then FeatureLoss.init opt_loss
    else if ty = .s tyInterpretedFeature then InterpretedFeatureLoss.init opt_loss
    else if ty = .s tyGeneratorGan then GeneratorGanLoss.init opt_loss
    else if ty = .s tyDiscriminatorGan then DiscriminatorGanLoss.init opt_loss
    else if ty = .s tyGeometric then GeometricSimilarityGeneratorLoss.init opt_loss
    else if ty = .s tyTranslational then TranslationInvarianceLoss.init opt_loss
    else .error .notImplementedError

/-! ### C5: manifest loaders (`paired_voice_audio_dataset.py` lines 22-49).

A manifest file is embedded as its list of lines (newline-free, as produced
by iterating the file handle); `line.strip().split('\t')` is embedded
structurally over the character list (Python `str.strip()` removes the ASCII
whitespace characters), and `os.path.dirname` / `os.path.join` are embedded
for POSIX-separated paths.  An out-of-range column access (`component[i]`)
or a failed 6-way unpacking raises, embedded as `none`. -/

def tabChar : Char := '\t'

def slashChar : Char := '/'

/-- The characters removed by Python `str.strip()`. -/
def isPyWhitespace (c : Char) : Bool :=
  c == ' ' || c == '\t' || c == '\n' || c == '\r' || c == '\x0b' || c == '\x0c'

/-- Python `str.strip()`. -/
def pyStrip (cs : List Char) : List Char :=
  ((cs.dropWhile isPyWhitespace).reverse.dropWhile isPyWhitespace).reverse

/-- Python `str.split('\t')`: the accumulator holds the current field in
reverse. -/
def splitTab : List Char → List Char → List String
  | [], acc => [⟨acc.reverse⟩]
  | c :: cs, acc =>
    if c == tabChar then ⟨acc.reverse⟩ :: splitTab cs []
    else splitTab cs (c :: acc)

/-- `line.strip().split('\t')` applied to one manifest line. -/
def splitLine (l : String) : List String := splitTab (pyStrip l.data) []

/-- Embedding of `os.path.dirname` (POSIX): the prefix up to the last
separator, with trailing separators stripped unless that prefix is all
separators. -/
def dirname (p : String) : String :=
  let cs := p.data
  let cut := cs.length - (cs.reverse.takeWhile (fun c => c != slashChar)).length
  let head := cs.take cut
  if !head.isEmpty && !(head.all (fun c => c == slashChar)) then
    ⟨(head.reverse.dropWhile (fun c => c == slashChar)).reverse⟩
  else
    ⟨head⟩

/-- Embedding of `os.path.join` (POSIX) on two components. -/
def pathJoin (a b : String) : String :=
  if b.data.head? == some slashChar then b
  else if a.data.isEmpty || a.data.getLast? == some slashChar then a ++ b
  else a ++ slashStr ++ b

/-- A list comprehension whose body may raise: builds the output in order,
propagating the first failure. -/
def mapLines (f : List String → Option (List String)) :
    List (List String) → Option (List (List String))
  | [] => some []
  | c :: cs =>
    match f c with
    | none => none
    | some r => (mapLines f cs).map (fun rs => r :: rs)

/-- Embedding of `load_tsv`: each line's columns are `(text, file)` and the
output entry is `[join(dirname(filename), file), text]`. -/
def load_tsv (filename : String) (fileLines : List String) :
    Option (List (List String)) :=
  let components := fileLines.map splitLine
  let base := dirname filename
  mapLines (fun c =>
    match c.get? 1, c.get? 0 with
    | some file, some text => some [pathJoin base file, text]
    | _, _ => none) components

/-- Embedding of `load_mozilla_cv`: the first (header) line is dropped and
each remaining line maps to `[join(base, 'clips/' + col1), col2]`. -/
def load_mozilla_cv (filename : String) (fileLines : List String) :
    Option (List (List String)) :=
  let components := (fileLines.map splitLine).drop 1
  let base := dirname filename
  mapLines (fun c =>
    match c.get? 1, c.get? 2 with
    | some file, some text => some [pathJoin base (clipsPrefix ++ file), text]
    | _, _ => none) components

/-- Body of the `load_voxpopuli` loop for one split line: an empty split is
skipped (`some none`), a 6-column split `(file, raw_text, norm_text,
speaker_id, split, gender)` contributes an entry, and any other width fails
the 6-way unpacking (`none`). -/
def voxLine (base : String) (line : List String) :
    Option (Option (List String)) :=
  if line.length = 0 then some none
  else
    match line with
    | [file, rawText, _, _, _, _] =>
      some (some [pathJoin (pathJoin base (⟨file.data.take 4⟩ : String))
        (file ++ oggWavSuffix), rawText])
    | _ => none

/-- Loop of `load_voxpopuli` over the split lines. -/
def voxLoop (base : String) : List (List String) → Option (List (List String))
  | [] => some []
  | c :: cs =>
    match voxLine base c with
    | none => none
    | some none => voxLoop base cs
    | some (some r) => (voxLoop base cs).map (fun rs => r :: rs)

/-- Embedding of `load_voxpopuli`: the header line is dropped and each
6-column line maps to `[join(base, file[:4], file + '.ogg.wav'),
raw_text]`. -/
def load_voxpopuli (filename : String) (fileLines : List String) :
    Option (List (List String)) :=
  voxLoop (dirname filename) ((fileLines.map splitLine).drop 1)

/-- Example manifest file name used by concrete witnesses. -/
def exManifestName : String := "corpus/manifest.tsv"

/-- Example TSV manifest line. -/
def exTsvLine : String := "hello\tclip.wav"

/-- Example Mozilla Common Voice manifest line. -/
def exMozLine : String := "cid\tclip.mp3\thello"

/-- Example VoxPopuli manifest line. -/
def exVoxLine : String := "20180101-x\traw text\tnorm\tspk\ttrain\tm"

/-- Example manifest header line. -/
def exHeaderLine : String := "header"

/-! ### C6, C8: `TextWavLoader.__getitem__`
(`paired_voice_audio_dataset.py` lines 123-159, with `get_wav_text_pair`
lines 106-111).

The loading of one corpus entry (`get_wav_text_pair` plus
`load_similar_clips`, both ending in external file decoding) is abstracted
as an outcome function `items`: either the `except` branch fires, or the
tokenized text, the decoded waveform (`None` when `load_audio` yields none),
the text, the path and the candidate conditioning clips are produced.  The
retry recursion — `self[(index+1) % len(self)]` after a load failure,
`self[random.randint(0, len(self)-1)]` after a limit violation — is embedded
with explicit fuel (`none` when the fuel runs out; the Python recursion has
no such bound), and the `random.randint(0, n-1)` draws are a list parameter
consumed one value per reroll.  `F.pad(x, (0, k))` appends `k` zeros. -/

/-- Outcome of loading the corpus entry at one index. -/
inductive LoadOutcome (Cond : Type) where
  | failure
  | loaded (tseq : List Int) (wav : Option (List Int)) (text : String)
      (path : String) (clips : Cond)
deriving DecidableEq

/-- The configuration fields of `TextWavLoader` read by `__getitem__`. -/
structure TWConfig where
  loadConditioning : Bool
  needsCollate : Bool
  maxWavLen : Option Nat
  maxTextLen : Option Nat
deriving DecidableEq

/-- Right zero-padding to length `m`: `F.pad(x, (0, m - len(x)))`. -/
def padTo (m : Nat) (l : List Int) : List Int :=
  l ++ List.replicate (m - l.length) 0

/-- A sample surfaced by `__getitem__`: the tuple of `needs_collate` mode,
or the dict of aligned mode (whose `conditioning` field is `none` exactly
when the key is absent). -/
inductive GetItemResult (Cond : Type) where
  | tup (tseq : List Int) (wav : List Int) (path : String) (text : String)
      (cond : Option Cond)
  | dict (realText : String) (paddedText : List Int) (textLengths : Nat)
      (wav : List Int) (wavLengths : Nat) (filenames : String)
      (conditioning : Option Cond)
deriving DecidableEq

/-- The waveform carried by a surfaced sample. -/
def GetItemResult.wavOf {Cond : Type} : GetItemResult Cond → List Int
  | .tup _ w _ _ _ => w
  | .dict _ _ _ w _ _ _ => w

/-- The token sequence carried by a surfaced sample. -/
def GetItemResult.tseqOf {Cond : Type} : GetItemResult Cond → List Int
  | .tup t _ _ _ _ => t
  | .dict _ t _ _ _ _ _ => t

/-- The limit test of `__getitem__` line 132-134: the wav is `None`, or a
configured maximum wav length is exceeded, or a configured maximum text
length is exceeded. -/
def overLimit (cfg : TWConfig) (tseq : List Int)
    (wav : Option (List Int)) : Bool :=
  wav.isNone ||
  (match cfg.maxWavLen with
   | some mw => decide (mw < (wav.getD []).length)
   | none => false) ||
  (match cfg.maxTextLen with
   | some mt => decide (mt < tseq.length)
   | none => false)

/-- The value surfaced for an in-limit sample (`__getitem__` lines 141-159):
the raw tuple in `needs_collate` mode, the padded dict otherwise.  Reaching
the dict branch with an unset maximum is a type error in Python and is ruled
out by the `__init__` assert (line 99); it is embedded as `none`. -/
def buildResult {Cond : Type} (cfg : TWConfig) (tseq : List Int)
    (w : List Int) (text path : String) (cond : Option Cond) :
    Option (GetItemResult Cond) :=
  if cfg.needsCollate then
    some (.tup tseq w path text cond)
  else
    match cfg.maxWavLen, cfg.maxTextLen with
    | some mw, some mt =>
      some (.dict text (padTo mt tseq) tseq.length (padTo mw w) w.length
        path cond)
    | _, _ => none

/-- Embedding of `TextWavLoader.__getitem__`: `n` is `len(self)`. -/
def getItem {Cond : Type} (cfg : TWConfig) (n : Nat)
    (items : Nat → LoadOutcome Cond) (rng : List Nat) :
    Nat → Nat → Option (GetItemResult Cond)
  | 0, _ => none
  | fuel + 1, index =>
    match items index with
    | .failure => getItem cfg n items rng fuel ((index + 1) % n)
    | .loaded tseq wav text path clips =>
      if overLimit cfg tseq wav then
        getItem cfg n items rng.tail fuel (rng.headD 0 % n)
      else
        match wav with
        | none => none
        | some w =>
          buildResult cfg tseq w text path
            (if cfg.loadConditioning then some clips else none)

/-- Example transcript string used by concrete witnesses. -/
def exText : String := "example text"

/-- Example audio path string used by concrete witnesses. -/
def exPath : String := "corpus/clip.wav"

/-! ### C9: the mel-target padding overwrite in `GptTtsHf.forward`
(`gpt_tts_hf.py` lines 96-108).

`mel_targets` is a `(b, m)` long tensor, embedded as a list of `b` rows of
length `m`; `wav_lengths` is a `(b,)` long tensor.  The in-place slice
assignment `mel_targets[b, mel_lengths[b]:] = self.STOP_MEL_TOKEN` (guarded
by `mel_lengths[b] < mel_targets.shape[-1]`; each row of a `(b, m)` tensor
has length `m`) is embedded as the function from the tensor's pre-state to
its post-state. -/

def STOP_MEL_TOKEN : Nat := 8193

/-- One row of the overwrite: `row[melLen:] = STOP_MEL_TOKEN` when
`melLen < len(row)`, otherwise the row is untouched. -/
def padMelRow (melLen : Nat) (row : List Nat) : List Nat :=
  if melLen < row.length then
    row.take melLen ++ List.replicate (row.length - melLen) STOP_MEL_TOKEN
  else row

/-- Embedding of the loop at `gpt_tts_hf.py` lines 105-108:
`mel_lengths = wav_lengths // mel_length_compression`, then every row `b`
is overwritten from position `mel_lengths[b]` on. -/
def forward_setMelPadding (melLengthCompression : Nat)
    (wavLengths : List Nat) (melTargets : List (List Nat)) :
    List (List Nat) :=
  List.zipWith (fun wl row => padMelRow (wl / melLengthCompression) row)
    wavLengths melTargets

/-! ### C7: `GptTtsHf.get_logits` (`gpt_tts_hf.py` lines 76-94) and
`ConditioningEncoder` (lines 13-32).

One batch element of a `(b, s, d)` activation tensor is embedded as a list
of `s` positions, each a channel vector (`List Int`); `permute(0, 2, 1)` is
a re-layout between `(b, s, C)` and `(b, C, s)`, so the channel count of a
logit tensor is the length of each position's vector.  The learned
components (embedding tables, the attention stack, the GPT-2 transformer
body, the layer norm) are abstracted as functions of the structure;
`nn.Linear(d, C)` is embedded as a list of `C` (weight row, bias) pairs, one
output channel per row.  Python's negative slice `enc[:, -n:]` takes the
whole sequence when `n = 0`. -/

def NUMBER_TEXT_TOKENS : Nat := 256

def NUMBER_MEL_CODES : Nat := 8194

/-- Dot product of a weight row with a channel vector. -/
def dotProd (a b : List Int) : Int :=
  (List.zipWith (fun x y => x * y) a b).sum

/-- `nn.Linear` as a list of (weight row, bias) pairs: one output channel
per row. -/
def linearMap (rows : List (List Int × Int)) (v : List Int) : List Int :=
  rows.map (fun rc => dotProd rc.1 v + rc.2)

/-- Embedding of `ConditioningEncoder.__init__`: the `kernel_size=1`
convolution `self.init` is a per-position affine map, and the attention
stack `self.attn` is abstracted. -/
structure ConditioningEncoder where
  initRows : List (List Int × Int)
  attn : List (List Int) → List (List Int)

/-- `ConditioningEncoder.forward`: `h = attn(init(x))`, returning
`h[:, :, 0]` — the channel vector at sequence position 0. -/
def ConditioningEncoder.forward (ce : ConditioningEncoder)
    (x : List (List Int)) : List Int :=
  (ce.attn (x.map (linearMap ce.initRows))).headD []

/-- Python's slice `l[-n:]`: the last `n` entries — the whole list when
`n = 0`. -/
def takeLast {α : Type} (n : Nat) (l : List α) : List α :=
  if n = 0 then l else l.drop (l.length - n)

/-- Embedding of `GptTtsHf`: the learned components read by
`get_logits`. -/
structure GptTtsHf where
  textEmbedding : Int → List Int
  conditioningEncoder : ConditioningEncoder
  melEmbedding : Int → List Int
  gpt : List (List Int) → List (List Int)
  finalNorm : List Int → List Int
  textHead : List (List Int × Int)
  melHead : List (List Int × Int)

/-- Embedding of `GptTtsHf.get_logits`: embed the text tokens, append the
single conditioning embedding (`unsqueeze(1)`) and the mel-code embeddings,
run the transformer, and head the first text positions into text logits and
the last mel positions (`enc[:, -mel:]`) into mel logits. -/
def GptTtsHf.get_logits (m : GptTtsHf) (textInputs : List Int)
    (condInput : List (List Int)) (melInputs : List Int) :
    List (List Int) × List (List Int) :=
  let textEmb := textInputs.map m.textEmbedding
  let cond := [m.conditioningEncoder.forward condInput]
  let melEmb := melInputs.map m.melEmbedding
  let emb := textEmb ++ cond ++ melEmb
  let enc := m.gpt emb
  let textLogits := (enc.take textEmb.length).map
    (fun v => linearMap m.textHead (m.finalNorm v))
  let melLogits := (takeLast melEmb.length enc).map
    (fun v => linearMap m.melHead (m.finalNorm v))
  (textLogits, melLogits)

/-- A tiny concrete `GptTtsHf` instance (dimension 1, identity transformer
body) for the zero-mel counterexample. -/
def exGptTtsSmall : GptTtsHf where
  textEmbedding := fun _ => [1]
  conditioningEncoder := ⟨[([1], 0)], fun l => l⟩
  melEmbedding := fun _ => [1]
  gpt := fun l => l
  finalNorm := fun v => v
  textHead := [([1], 0)]
  melHead := [([1], 0)]

/-- The tiny concrete instance with heads of the true channel counts (256
and 8194 rows, as built by `nn.Linear(model_dim, NUMBER_TEXT_TOKENS)` and
`nn.Linear(model_dim, NUMBER_MEL_CODES)`). -/
def exGptTtsFull : GptTtsHf where
  textEmbedding := fun _ => [1]
  conditioningEncoder := ⟨[([1], 0)], fun l => l⟩
  melEmbedding := fun _ => [1]
  gpt := fun l => l
  finalNorm := fun v => v
  textHead := List.replicate NUMBER_TEXT_TOKENS ([1], 0)
  melHead := List.replicate NUMBER_MEL_CODES ([1], 0)

/-! ### C10: `TextMelCollate.__call__`
(`paired_voice_audio_dataset.py` lines 165-217).

A batch element is the tuple surfaced by `__getitem__` in `needs_collate`
mode; a waveform is a `(channels, samples)` tensor, embedded as a list of
channel rows.  `torch.sort(..., descending=True)` returns the sorted length
tensor together with the sorting indices; it is embedded as a merge sort of
the index range by non-increasing text length (which tie order the unstable
`torch.sort` picks is unspecified, and nothing below depends on it).
Calling the collator on an empty batch raises (`batch[0]`, `max` of an
empty list), embedded as `none`. -/

/-- A batch element `[text_normalized, wav, filename, text, cond]`. -/
structure CollateItem (Cond : Type) where
  text : List Int
  wav : List (List Int)
  filename : String
  realText : String
  cond : Option Cond

instance {Cond : Type} : Inhabited (CollateItem Cond) :=
  ⟨⟨[], [], ⟨[]⟩, ⟨[]⟩, none⟩⟩

/-- `x[1].size(1)`: the sample count of a `(channels, samples)` waveform. -/
def wavSamples (w : List (List Int)) : Nat := (w.headD []).length

/-- The index permutation of `torch.sort(text_lengths, descending=True)`:
the batch indices reordered so the text lengths are non-increasing. -/
def idsSortedDecreasing (lengths : List Nat) : List Nat :=
  (List.range lengths.length).mergeSort
    (fun i j => decide (lengths.getD j 0 ≤ lengths.getD i 0))

/-- The dict built by `TextMelCollate.__call__` (the `conditioning` field is
`none` exactly when the key is absent, i.e. no sample carried clips). -/
structure CollateResult (Cond : Type) where
  paddedText : List (List Int)
  textLengths : List Nat
  wav : List (List (List Int))
  wavLengths : List Nat
  filenames : List String
  realTexts : List String
  conditioning : Option (List Cond)

/-- Embedding of `TextMelCollate.__call__`. -/
def TextMelCollate.call {Cond : Type} (batch : List (CollateItem Cond)) :
    Option (CollateResult Cond) :=
  match batch with
  | [] => none
  | _ :: _ =>
    let lengths := batch.map (fun x => x.text.length)
    let ids := idsSortedDecreasing lengths
    let inputLengths := ids.map (fun i => (batch.getD i default).text.length)
    let maxInputLen := inputLengths.headD 0
    let textPadded := ids.map (fun i =>
      padTo maxInputLen (batch.getD i default).text)
    let filenames := ids.map (fun i => (batch.getD i default).filename)
    let realTexts := ids.map (fun i => (batch.getD i default).realText)
    let conds := (ids.map (fun i => (batch.getD i default).cond)).reduceOption
    let maxTargetLen := (batch.map (fun x => wavSamples x.wav)).foldl max 0
    let wavPadded := ids.map (fun i =>
      (batch.getD i default).wav.map (padTo maxTargetLen))
    let outputLengths := ids.map (fun i =>
      wavSamples (batch.getD i default).wav)
    some ⟨textPadded, inputLengths, wavPadded, outputLengths, filenames,
      realTexts, if conds.isEmpty then none else some conds⟩

/-! ### Theorems for C1, C3, C4 -/

/-- The token-scan `tokens.any (t == c)` decides membership of the code `c`. -/
theorem anyBeqMem (l : List Int) (a : Int) :
    (l.any fun t => t == a) = decide (a ∈ l) := by
  cases h : decide (a ∈ l) with
  | true =>
    simp only [decide_eq_true_eq] at h
    exact List.any_eq_true.mpr ⟨a, h, by simp⟩
  | false =>
    simp only [decide_eq_false_iff_not] at h
    apply List.any_eq_false.mpr
    intro x hx
    simp only [beq_iff_eq]
    rintro rfl
    exact h hx

/-- Characterization of `get_text` in terms of sentinel membership. -/
theorem get_text_eq (useBpe : Bool) (encode : String → List Int)
    (text : String) :
    get_text useBpe encode text =
      if (0 : Int) ∈ encode text.trim.toLower ∨
          (useBpe = true ∧ (1 : Int) ∈ encode text.trim.toLower) then none
      else some (encode text.trim.toLower) := by
  unfold get_text
  dsimp only
  rw [anyBeqMem, anyBeqMem]
  cases useBpe <;>
    by_cases h0 : (0 : Int) ∈ encode text.trim.toLower <;>
    by_cases h1 : (1 : Int) ∈ encode text.trim.toLower <;>
    simp [h0, h1]

/-- C1: for every input string, `TextWavLoader.get_text` rejects any tokenized
sequence containing the stop code 0 at any position, rejects the start/unknown
code 1 at any position when the BPE tokenizer is in use, and returns a sequence
free of these codes unchanged. -/
theorem get_text_sentinels (useBpe : Bool) (encode : String → List Int)
    (text : String) :
    (∀ r, get_text useBpe encode text = some r →
      r = encode text.trim.toLower ∧ (0 : Int) ∉ r ∧
        (useBpe = true → (1 : Int) ∉ r)) ∧
    ((0 : Int) ∉ encode text.trim.toLower →
      (useBpe = true → (1 : Int) ∉ encode text.trim.toLower) →
      get_text useBpe encode text = some (encode text.trim.toLower)) := by
  constructor
  · intro r hr
    rw [get_text_eq] at hr
    split at hr
    · cases hr
    · rename_i hcond
      push_neg at hcond
      obtain rfl : encode text.trim.toLower = r := by
        injection hr
      exact ⟨rfl, hcond.1, fun hu => hcond.2 hu⟩
  · intro h0 h1
    rw [get_text_eq]
    have hcond : ¬((0 : Int) ∈ encode text.trim.toLower ∨
        (useBpe = true ∧ (1 : Int) ∈ encode text.trim.toLower)) := by
      rintro (hc | ⟨hu, hc⟩)
      · exact h0 hc
      · exact h1 hu hc
    simp [hcond]

/-- C1 witness: concrete evaluation of the theorem at a tokenizer producing
the sentinel-free sequence `[2, 2]`. -/
theorem get_text_sentinels_witness :
    get_text false (fun _ => ([2, 2] : List Int)) "ab" = some [2, 2] :=
  (get_text_sentinels false (fun _ => ([2, 2] : List Int)) "ab").2
    (by decide) (by intro h; cases h)

/-- C3: `extract_params_from_state` returns the state values for a key list in
order (same length), returns a one-element list for a single key, and leaves
the state mapping unmodified. -/
theorem extract_params_from_state_spec {V : Type} [Inhabited V]
    (ks : List String) (k : String) (state : List (String × V)) :
    ((∀ j ∈ ks, (stateGet state j).isSome) →
      (extract_params_from_state (.many ks) state).1 =
        some (ks.map (fun j => (stateGet state j).getD default))) ∧
    ((stateGet state k).isSome →
      (extract_params_from_state (.single k) state).1 =
        some [(stateGet state k).getD default]) ∧
    (extract_params_from_state (.many ks) state).2 = state ∧
    (extract_params_from_state (.single k) state).2 = state := by
  refine ⟨?_, ?_, rfl, rfl⟩
  · intro hall
    simp only [extract_params_from_state]
    induction ks with
    | nil => simp [lookupAll]
    | cons j js ih =>
      have hj : (stateGet state j).isSome := hall j (by simp)
      obtain ⟨v, hv⟩ := Option.isSome_iff_exists.mp hj
      have hrest := ih (fun x hx => hall x (by simp [hx]))
      simp only [lookupAll, hv, List.map_cons]
      rw [hrest]
      simp [hv]
  · intro hk
    obtain ⟨v, hv⟩ := Option.isSome_iff_exists.mp hk
    simp [extract_params_from_state, hv]

/-- C3 witness: concrete evaluation on a two-entry state. -/
theorem extract_params_from_state_witness :
    ((∀ j ∈ [keyNoise, keyType],
        (stateGet [(keyNoise, (5 : Nat)), (keyType, 7)] j).isSome) →
      (extract_params_from_state (.many [keyNoise, keyType])
        [(keyNoise, (5 : Nat)), (keyType, 7)]).1 =
        some ([keyNoise, keyType].map
          (fun j => (stateGet [(keyNoise, (5 : Nat)), (keyType, 7)] j).getD default))) ∧
    (extract_params_from_state (.many [keyNoise, keyType])
        [(keyNoise, (5 : Nat)), (keyType, 7)]).1 = some [5, 7] := by
  have h := extract_params_from_state_spec [keyNoise, keyType] keyType
    [(keyNoise, (5 : Nat)), (keyType, 7)]
  refine ⟨h.1, ?_⟩
  rw [h.1 (by decide)]
  decide

/-- C4: the corpus pair list shuffle is a deterministic function of the seed
and the normalized pair list: two `TextWavLoader` constructions with equal
seeds and manifests yielding equal concatenated pair lists produce identical
`audiopaths_and_text` orderings. -/
theorem initPairs_deterministic (seed₁ seed₂ : Nat)
    (fetched₁ fetched₂ : List (List (List String)))
    (hseed : seed₁ = seed₂) (hpairs : fetched₁.flatten = fetched₂.flatten) :
    TextWavLoader.initPairs seed₁ fetched₁ = TextWavLoader.initPairs seed₂ fetched₂ := by
  unfold TextWavLoader.initPairs
  rw [hseed, hpairs]

/-- C4 witness: two constructions, one from a single manifest and one from two
manifests, with the same seed and the same concatenated pair list. -/
theorem initPairs_deterministic_witness :
    (42 : Nat) = 42 ∧
    ([[[tyPix, nameL1], [tyFeature, nameL2]]] : List (List (List String))).flatten =
      ([[[tyPix, nameL1]], [[tyFeature, nameL2]]] : List (List (List String))).flatten ∧
    TextWavLoader.initPairs 42 [[[tyPix, nameL1], [tyFeature, nameL2]]] =
      TextWavLoader.initPairs 42 [[[tyPix, nameL1]], [[tyFeature, nameL2]]] := by
  refine ⟨rfl, by decide, ?_⟩
  exact initPairs_deterministic 42 42 _ _ rfl (by decide)

/-! ### Theorems for C2 -/

/-- Whenever `PixLoss.__init__` succeeds it yields a `PixLoss` instance. -/
theorem pixLoss_init_class (opt : LossOpt) (inst : LossInstance)
    (h : PixLoss.init opt = .ok inst) : inst.classOf = tyPix := by
  unfold PixLoss.init at h
  split at h
  · cases h
  · split at h
    · cases h
    · injection h with h
      subst h
      rfl

/-- Whenever `FeatureLoss.__init__` succeeds it yields a `FeatureLoss`
instance. -/
theorem featureLoss_init_class (opt : LossOpt) (inst : LossInstance)
    (h : FeatureLoss.init opt = .ok inst) : inst.classOf = tyFeature := by
  unfold FeatureLoss.init at h
  split at h
  · cases h
  · split at h
    · cases h
    · split at h
      · cases h
      · injection h with h
        subst h
        rfl

/-- Whenever `InterpretedFeatureLoss.__init__` succeeds it yields an
`InterpretedFeatureLoss` instance. -/
theorem InterpretedfeatureLoss_init_class (opt : LossOpt) (inst : LossInstance)
    (h : InterpretedFeatureLoss.init opt = .ok inst) :
    inst.classOf = tyInterpretedFeature := by
  unfold InterpretedFeatureLoss.init at h
  split at h
  · cases h
  · split at h
    · cases h
    · split at h
      · cases h
      · split at h
        · cases h
        · injection h with h
          subst h
          rfl

/-- Whenever `GeneratorGanLoss.__init__` succeeds it yields a
`GeneratorGanLoss` instance. -/
theorem generatorGanLoss_init_class (opt : LossOpt) (inst : LossInstance)
    (h : GeneratorGanLoss.init opt = .ok inst) :
    inst.classOf = tyGeneratorGan := by
  unfold GeneratorGanLoss.init at h
  split at h
  · cases h
  · injection h with h
    subst h
    rfl

/-- Whenever `DiscriminatorGanLoss.__init__` succeeds it yields a
`DiscriminatorGanLoss` instance. -/
theorem discriminatorGanLoss_init_class (opt : LossOpt) (inst : LossInstance)
    (h : DiscriminatorGanLoss.init opt = .ok inst) :
    inst.classOf = tyDiscriminatorGan := by
  unfold DiscriminatorGanLoss.init at h
  split at h
  · cases h
  · injection h with h
    subst h
    rfl

/-- Whenever `GeometricSimilarityGeneratorLoss.__init__` succeeds it yields a
`GeometricSimilarityGeneratorLoss` instance. -/
theorem geometricSimilarityGeneratorLoss_init_class (opt : LossOpt)
    (inst : LossInstance)
    (h : GeometricSimilarityGeneratorLoss.init opt = .ok inst) :
    inst.classOf = tyGeometric := by
  unfold GeometricSimilarityGeneratorLoss.init at h
  split at h
  · cases h
  · split at h
    · cases h
    · split at h
      · cases h
      · injection h with h
        subst h
        rfl

/-- Whenever `TranslationInvarianceLoss.__init__` succeeds it yields a
`TranslationInvarianceLoss` instance. -/
theorem translationInvarianceLoss_init_class (opt : LossOpt)
    (inst : LossInstance)
    (h : TranslationInvarianceLoss.init opt = .ok inst) :
    inst.classOf = tyTranslational := by
  unfold TranslationInvarianceLoss.init at h
  split at h
  · cases h
  · split at h
    · cases h
    · split at h
      · cases h
      · split at h
        · cases h
        · split at h
          · cases h
          · split at h
            · cases h
            · injection h with h
              subst h
              rfl
            · cases h

/-- C2 counterexample: a configuration whose `type` is `'pix'` but whose
`criterion` names an unsupported loss makes `create_loss` raise
`NotImplementedError` (from `get_basic_criterion_for_name`) rather than
return a `PixLoss` instance, so the claim that every configuration with one
of the seven type strings yields an instance of the corresponding class is
false as stated. -/
theorem create_loss_pix_criterion_raises :
    create_loss [(keyType, CfgVal.s tyPix), (keyCriterion, CfgVal.s nameCharbonnier)] =
      .error .notImplementedError := by
  rfl

/-- When the `type` key is present, `create_loss` reduces to the seven-way
if-chain of `losses.py` lines 12-27. -/
theorem create_loss_ok_eq (opt : LossOpt) (ty : CfgVal)
    (hget : getKey opt keyType = .ok ty) :
    create_loss opt =
      (if ty = .s tyPix then PixLoss.init opt
      else if ty = .s tyFeature then FeatureLoss.init opt
      else if ty = .s tyInterpretedFeature then InterpretedFeatureLoss.init opt
      else if ty = .s tyGeneratorGan then GeneratorGanLoss.init opt
      else if ty = .s tyDiscriminatorGan then DiscriminatorGanLoss.init opt
      else if ty = .s tyGeometric then GeometricSimilarityGeneratorLoss.init opt
      else if ty = .s tyTranslational then TranslationInvarianceLoss.init opt
      else .error .notImplementedError) := by
  unfold create_loss
  rw [hget]

/-- C2 (amended): `create_loss` dispatches on the `type` string: whenever it
returns an instance, that instance belongs to the class named by the `type`
string (one of the seven), and for every `type` string outside the seven it
raises `NotImplementedError`; a recognized `type` can still raise when the
selected constructor itself raises (unknown criterion, missing key, or a
failed `patch_size > overlap` assertion). -/
theorem create_loss_dispatch (opt : LossOpt) (ty : CfgVal)
    (hty : lookupOpt opt keyType = some ty) :
    (∀ inst, create_loss opt = .ok inst → ty = .s inst.classOf) ∧
    (ty ∉ [CfgVal.s tyPix, CfgVal.s tyFeature, CfgVal.s tyInterpretedFeature,
        CfgVal.s tyGeneratorGan, CfgVal.s tyDiscriminatorGan,
        CfgVal.s tyGeometric, CfgVal.s tyTranslational] →
      create_loss opt = .error .notImplementedError) := by
  have hget : getKey opt keyType = .ok ty := by
    unfold getKey
    rw [hty]
  constructor
  · intro inst h
    rw [create_loss_ok_eq opt ty hget] at h
    by_cases h1 : ty = .s tyPix
    · rw [if_pos h1] at h
      rw [h1, pixLoss_init_class opt inst h]
    · rw [if_neg h1] at h
      by_cases h2 : ty = .s tyFeature
      · rw [if_pos h2] at h
        rw [h2, featureLoss_init_class opt inst h]
      · rw [if_neg h2] at h
        by_cases h3 : ty = .s tyInterpretedFeature
        · rw [if_pos h3] at h
          rw [h3, InterpretedfeatureLoss_init_class opt inst h]
        · rw [if_neg h3] at h
          by_cases h4 : ty = .s tyGeneratorGan
          · rw [if_pos h4] at h
            rw [h4, generatorGanLoss_init_class opt inst h]
          · rw [if_neg h4] at h
            by_cases h5 : ty = .s tyDiscriminatorGan
            · rw [if_pos h5] at h
              rw [h5, discriminatorGanLoss_init_class opt inst h]
            · rw [if_neg h5] at h
              by_cases h6 : ty = .s tyGeometric
              · rw [if_pos h6] at h
                rw [h6, geometricSimilarityGeneratorLoss_init_class opt inst h]
              · rw [if_neg h6] at h
                by_cases h7 : ty = .s tyTranslational
                · rw [if_pos h7] at h
                  rw [h7, translationInvarianceLoss_init_class opt inst h]
                · rw [if_neg h7] at h
                  cases h
  · intro hnot
    simp only [List.mem_cons, List.not_mem_nil, or_false, not_or] at hnot
    obtain ⟨h1, h2, h3, h4, h5, h6, h7⟩ := hnot
    rw [create_loss_ok_eq opt ty hget]
    rw [if_neg h1, if_neg h2, if_neg h3, if_neg h4, if_neg h5, if_neg h6, if_neg h7]

/-- C2 witness: concrete evaluation of the dispatch theorem on a
configuration whose `type` string is unrecognized. -/
theorem create_loss_dispatch_witness :
    lookupOpt [(keyType, CfgVal.s nameCharbonnier)] keyType =
      some (CfgVal.s nameCharbonnier) ∧
    create_loss [(keyType, CfgVal.s nameCharbonnier)] =
      .error .notImplementedError :=
  ⟨by decide,
    (create_loss_dispatch [(keyType, CfgVal.s nameCharbonnier)]
      (CfgVal.s nameCharbonnier) (by decide)).2 (by decide)⟩

/-! ### Theorems for C5 -/

/-- In-range positional access yields the default-access value. -/
theorem get?_eq_some_getD {α : Type} (l : List α) (n : Nat) (d : α)
    (h : n < l.length) : l.get? n = some (l.getD n d) := by
  rw [List.getD_eq_getElem?_getD, List.get?_eq_getElem?]
  cases hx : l[n]? with
  | none =>
    rw [List.getElem?_eq_none_iff] at hx
    omega
  | some v => rfl

/-- A raising list comprehension whose body always succeeds produces the
mapped list. -/
theorem mapLines_eq_map (f : List String → Option (List String))
    (cs : List (List String)) (h : ∀ c ∈ cs, (f c).isSome) :
    mapLines f cs = some (cs.map (fun c => (f c).getD [])) := by
  induction cs with
  | nil => rfl
  | cons c cs ih =>
    obtain ⟨r, hr⟩ := Option.isSome_iff_exists.mp (h c (by simp))
    simp only [mapLines, hr, List.map_cons]
    rw [ih (fun x hx => h x (by simp [hx]))]
    simp [hr]

/-- A list of length six is literally a six-element list. -/
theorem list_len6 {α : Type} (c : List α) (h : c.length = 6) :
    ∃ a b d e f g, c = [a, b, d, e, f, g] := by
  rcases c with _ | ⟨a, c⟩
  · simp at h
  rcases c with _ | ⟨b, c⟩
  · simp at h
  rcases c with _ | ⟨d, c⟩
  · simp at h
  rcases c with _ | ⟨e, c⟩
  · simp at h
  rcases c with _ | ⟨f, c⟩
  · simp at h
  rcases c with _ | ⟨g, c⟩
  · simp at h
  · refine ⟨a, b, d, e, f, g, ?_⟩
    simp only [List.length_cons] at h
    have : c = [] := by
      rw [← List.length_eq_zero]
      omega
    rw [this]

/-- The `load_voxpopuli` loop over all-6-column lines produces the mapped
list. -/
theorem voxLoop_eq_map (base : String) (cs : List (List String))
    (h : ∀ c ∈ cs, c.length = 6) :
    voxLoop base cs = some (cs.map (fun c =>
      [pathJoin (pathJoin base (⟨(c.getD 0 "").data.take 4⟩ : String))
        (c.getD 0 "" ++ oggWavSuffix), c.getD 1 ""])) := by
  induction cs with
  | nil => rfl
  | cons c cs ih =>
    obtain ⟨a, b, d, e, f, g, rfl⟩ := list_len6 c (h c (by simp))
    have hrest := ih (fun x hx => h x (by simp [hx]))
    simp only [voxLoop, voxLine, List.length_cons, List.map_cons]
    rw [hrest]
    simp [List.getD]

/-- C5: each manifest loader normalizes its format to (audio-path,
transcript) pairs: `load_tsv` maps a line with columns `(text, file)` to
`[dirname/file, text]`; `load_mozilla_cv` skips the header line and maps
columns to `[dirname/clips/<col1>, <col2>]`; `load_voxpopuli` skips the
header line and maps each 6-column line to
`[dirname/<first 4 chars of file>/<file>.ogg.wav, raw_text]`. -/
theorem manifest_loaders_normalize (filename : String)
    (tsvLines mozLines voxLines : List String)
    (htsv : ∀ l ∈ tsvLines, 2 ≤ (splitLine l).length)
    (hmoz : ∀ l ∈ mozLines.drop 1, 3 ≤ (splitLine l).length)
    (hvox : ∀ l ∈ voxLines.drop 1, (splitLine l).length = 6) :
    load_tsv filename tsvLines =
      some (tsvLines.map (fun l =>
        [pathJoin (dirname filename) ((splitLine l).getD 1 ""),
          (splitLine l).getD 0 ""])) ∧
    load_mozilla_cv filename mozLines =
      some ((mozLines.drop 1).map (fun l =>
        [pathJoin (dirname filename) (clipsPrefix ++ (splitLine l).getD 1 ""),
          (splitLine l).getD 2 ""])) ∧
    load_voxpopuli filename voxLines =
      some ((voxLines.drop 1).map (fun l =>
        [pathJoin (pathJoin (dirname filename)
            (⟨((splitLine l).getD 0 "").data.take 4⟩ : String))
          ((splitLine l).getD 0 "" ++ oggWavSuffix),
          (splitLine l).getD 1 ""])) := by
  refine ⟨?_, ?_, ?_⟩
  · unfold load_tsv
    dsimp only
    rw [mapLines_eq_map _ _ (by
      intro c hc
      obtain ⟨l, hl, rfl⟩ := List.mem_map.mp hc
      have h2 := htsv l hl
      rw [get?_eq_some_getD (splitLine l) 1 "" (by omega),
        get?_eq_some_getD (splitLine l) 0 "" (by omega)]
      rfl)]
    refine congrArg some ?_
    rw [List.map_map]
    apply List.map_congr_left
    intro l hl
    have h2 := htsv l hl
    simp only [Function.comp]
    rw [get?_eq_some_getD (splitLine l) 1 "" (by omega),
      get?_eq_some_getD (splitLine l) 0 "" (by omega)]
    rfl
  · unfold load_mozilla_cv
    dsimp only
    rw [← List.map_drop]
    rw [mapLines_eq_map _ _ (by
      intro c hc
      obtain ⟨l, hl, rfl⟩ := List.mem_map.mp hc
      have h2 := hmoz l hl
      rw [get?_eq_some_getD (splitLine l) 1 "" (by omega),
        get?_eq_some_getD (splitLine l) 2 "" (by omega)]
      rfl)]
    refine congrArg some ?_
    rw [List.map_map]
    apply List.map_congr_left
    intro l hl
    have h2 := hmoz l hl
    simp only [Function.comp]
    rw [get?_eq_some_getD (splitLine l) 1 "" (by omega),
      get?_eq_some_getD (splitLine l) 2 "" (by omega)]
    rfl
  · unfold load_voxpopuli
    rw [← List.map_drop]
    rw [voxLoop_eq_map _ _ (by
      intro c hc
      obtain ⟨l, hl, rfl⟩ := List.mem_map.mp hc
      exact hvox l hl)]
    refine congrArg some ?_
    rw [List.map_map]
    rfl

/-- C5 witness: concrete evaluation of the three loaders on one-line
manifests (plus a header for the formats that skip one). -/
theorem manifest_loaders_witness :
    (∀ l ∈ [exTsvLine], 2 ≤ (splitLine l).length) ∧
    load_tsv exManifestName [exTsvLine] =
      some [[pathJoin (dirname exManifestName) ((splitLine exTsvLine).getD 1 ""),
        (splitLine exTsvLine).getD 0 ""]] ∧
    load_mozilla_cv exManifestName [exHeaderLine, exMozLine] =
      some [[pathJoin (dirname exManifestName)
          (clipsPrefix ++ (splitLine exMozLine).getD 1 ""),
        (splitLine exMozLine).getD 2 ""]] ∧
    load_voxpopuli exManifestName [exHeaderLine, exVoxLine] =
      some [[pathJoin (pathJoin (dirname exManifestName)
            (⟨((splitLine exVoxLine).getD 0 "").data.take 4⟩ : String))
          ((splitLine exVoxLine).getD 0 "" ++ oggWavSuffix),
        (splitLine exVoxLine).getD 1 ""]] := by
  have h := manifest_loaders_normalize exManifestName [exTsvLine]
    [exHeaderLine, exMozLine] [exHeaderLine, exVoxLine]
    (by decide) (by decide) (by decide)
  refine ⟨by decide, ?_, ?_, ?_⟩
  · simpa using h.1
  · simpa using h.2.1
  · simpa using h.2.2

/-! ### Theorems for C6 and C8 -/

/-- The padded sequence has the padded length (the target when the input is
no longer than it). -/
theorem padTo_length (m : Nat) (l : List Int) :
    (padTo m l).length = max l.length m := by
  unfold padTo
  simp only [List.length_append, List.length_replicate]
  omega

/-- C6: at an index whose entry loads successfully within the configured
limits, `__getitem__` surfaces exactly the tokenized text, the waveform,
the source path, the original text, and a conditioning value that is
non-`None` iff `load_conditioning` is enabled — as the tuple
`(tseq, wav, path, text, cond)` in `needs_collate` mode, and otherwise as
the dict additionally carrying the original (pre-padding) text and wav
lengths. -/
theorem getItem_success_sample {Cond : Type} (cfg : TWConfig) (n : Nat)
    (items : Nat → LoadOutcome Cond) (rng : List Nat) (fuel index : Nat)
    (tseq w : List Int) (text path : String) (clips : Cond) (mw mt : Nat)
    (hload : items index = .loaded tseq (some w) text path clips)
    (hwav : ∀ m, cfg.maxWavLen = some m → w.length ≤ m)
    (htext : ∀ m, cfg.maxTextLen = some m → tseq.length ≤ m)
    (hcollate : cfg.needsCollate = false →
      cfg.maxWavLen = some mw ∧ cfg.maxTextLen = some mt) :
    getItem cfg n items rng (fuel + 1) index =
      some (if cfg.needsCollate then
        .tup tseq w path text (if cfg.loadConditioning then some clips else none)
      else
        .dict text (padTo mt tseq) tseq.length (padTo mw w) w.length path
          (if cfg.loadConditioning then some clips else none)) := by
  have hov : overLimit cfg tseq (some w) = false := by
    unfold overLimit
    cases hmwv : cfg.maxWavLen with
    | none =>
      cases hmtv : cfg.maxTextLen with
      | none => simp
      | some m =>
        have h2 := htext m hmtv
        simp only [Option.isNone_some, Option.getD_some, Bool.false_or,
          decide_eq_false_iff_not, Bool.or_eq_false_iff]
        omega
    | some m =>
      have h1 := hwav m hmwv
      cases hmtv : cfg.maxTextLen with
      | none =>
        simp only [Option.isNone_some, Option.getD_some, Bool.false_or,
          Bool.or_false, decide_eq_false_iff_not]
        omega
      | some m2 =>
        have h2 := htext m2 hmtv
        simp only [Option.isNone_some, Option.getD_some, Bool.false_or,
          decide_eq_false_iff_not, Bool.or_eq_false_iff]
        constructor <;> omega
  rw [getItem]
  rw [hload]
  dsimp only
  rw [hov]
  rw [if_neg Bool.false_ne_true]
  cases hc : cfg.needsCollate with
  | true => simp [buildResult, hc]
  | false =>
    obtain ⟨h1, h2⟩ := hcollate hc
    simp [buildResult, hc, h1, h2]

/-- C6 witness: concrete evaluation on a one-retry-free index in
`needs_collate` mode with conditioning enabled. -/
theorem getItem_success_sample_witness :
    getItem ⟨true, true, some 10, some 5⟩ 3
      (fun _ => .loaded [2] (some [3, 3]) exText exPath (7 : Nat)) [] 1 0 =
      some (.tup [2] [3, 3] exPath exText (some 7)) := by
  have h := getItem_success_sample ⟨true, true, some 10, some 5⟩ 3
    (fun _ => .loaded [2] (some [3, 3]) exText exPath (7 : Nat)) [] 0 0
    [2] [3, 3] exText exPath 7 10 5 rfl
    (by intro m hm; cases hm; decide)
    (by intro m hm; cases hm; decide)
    (by intro hfalse; cases hfalse)
  simpa using h

/-- C8: every sample `__getitem__` actually surfaces satisfies the
configured limits — the carried waveform has length at most `max_wav_len`
and the carried token sequence has length at most `max_text_len` (each when
set); a load failure or limit violation is never surfaced, only retried (at
`(index+1) % n` resp. at a drawn random index), so `some r` only arises
from the in-limit branch. -/
theorem getItem_limits {Cond : Type} (cfg : TWConfig) (n : Nat)
    (items : Nat → LoadOutcome Cond) (rng : List Nat) (fuel index : Nat)
    (r : GetItemResult Cond)
    (h : getItem cfg n items rng fuel index = some r) :
    (∀ m, cfg.maxWavLen = some m → r.wavOf.length ≤ m) ∧
    (∀ m, cfg.maxTextLen = some m → r.tseqOf.length ≤ m) := by
  induction fuel generalizing rng index with
  | zero =>
    rw [getItem] at h
    cases h
  | succ fuel ih =>
    rw [getItem] at h
    cases hit : items index with
    | failure =>
      rw [hit] at h
      exact ih _ _ h
    | loaded tseq wav text path clips =>
      rw [hit] at h
      dsimp only at h
      cases hov : overLimit cfg tseq wav with
      | true =>
        rw [hov] at h
        rw [if_pos rfl] at h
        exact ih _ _ h
      | false =>
        rw [hov] at h
        rw [if_neg Bool.false_ne_true] at h
        cases wav with
        | none => cases h
        | some w =>
          unfold overLimit at hov
          simp only [Option.isNone_some, Option.getD_some, Bool.false_or,
            Bool.or_eq_false_iff] at hov
          have hwb : ∀ m, cfg.maxWavLen = some m → w.length ≤ m := by
            intro m hm
            have := hov.1
            rw [hm] at this
            simp only [decide_eq_false_iff_not] at this
            omega
          have htb : ∀ m, cfg.maxTextLen = some m → tseq.length ≤ m := by
            intro m hm
            have := hov.2
            rw [hm] at this
            simp only [decide_eq_false_iff_not] at this
            omega
          unfold buildResult at h
          dsimp only at h
          cases hc : cfg.needsCollate with
          | true =>
            rw [hc] at h
            rw [if_pos rfl] at h
            injection h with h
            subst h
            exact ⟨fun m hm => hwb m hm, fun m hm => htb m hm⟩
          | false =>
            rw [hc] at h
            rw [if_neg Bool.false_ne_true] at h
            cases hmwv : cfg.maxWavLen with
            | none =>
              rw [hmwv] at h
              cases h
            | some mw =>
              rw [hmwv] at h
              cases hmtv : cfg.maxTextLen with
              | none =>
                rw [hmtv] at h
                cases h
              | some mt =>
                rw [hmtv] at h
                injection h with h
                subst h
                constructor
                · intro m hm
                  injection hm with hm
                  subst hm
                  have := hwb mw hmwv
                  simp only [GetItemResult.wavOf, padTo_length]
                  omega
                · intro m hm
                  injection hm with hm
                  subst hm
                  have := htb mt hmtv
                  simp only [GetItemResult.tseqOf, padTo_length]
                  omega

/-- C8 witness: a load failure at index 0 is retried at index 1 and the
surfaced sample satisfies both limits. -/
theorem getItem_limits_witness :
    getItem ⟨false, true, some 10, some 5⟩ 2
      (fun i => if i = 0 then .failure
        else .loaded [2] (some [3, 3]) exText exPath (7 : Nat))
      [] 2 0 = some (.tup [2] [3, 3] exPath exText none) ∧
    (GetItemResult.tup [2] [3, 3] exPath exText (none : Option Nat)).wavOf.length ≤ 10 ∧
    (GetItemResult.tup [2] [3, 3] exPath exText (none : Option Nat)).tseqOf.length ≤ 5 := by
  have heval : getItem ⟨false, true, some 10, some 5⟩ 2
      (fun i => if i = 0 then .failure
        else .loaded [2] (some [3, 3]) exText exPath (7 : Nat))
      [] 2 0 = some (.tup [2] [3, 3] exPath exText none) := by
    rfl
  have h := getItem_limits _ _ _ _ _ _ _ heval
  exact ⟨heval, h.1 10 rfl, h.2 5 rfl⟩

/-! ### Theorems for C9 -/

/-- The per-row overwrite preserves the row length. -/
theorem padMelRow_length (L : Nat) (row : List Nat) :
    (padMelRow L row).length = row.length := by
  unfold padMelRow
  split
  · rename_i h
    simp only [List.length_append, List.length_take, List.length_replicate]
    omega
  · rfl

/-- Position `i` of an overwritten row: the stop token from position `L`
on, the original entry before it. -/
theorem padMelRow_getD (L : Nat) (row : List Nat) (i : Nat)
    (hi : i < row.length) :
    (padMelRow L row).getD i 0 =
      if L ≤ i then STOP_MEL_TOKEN else row.getD i 0 := by
  unfold padMelRow
  by_cases hL : L < row.length
  · rw [if_pos hL]
    by_cases hiL : i < L
    · rw [if_neg (by omega)]
      rw [List.getD_eq_getElem?_getD, List.getElem?_append, List.length_take]
      rw [if_pos (by omega)]
      rw [List.getElem?_take, if_pos hiL]
      rw [← List.getD_eq_getElem?_getD]
    · rw [if_pos (by omega)]
      rw [List.getD_eq_getElem?_getD, List.getElem?_append, List.length_take]
      rw [if_neg (by omega)]
      rw [List.getElem?_replicate]
      rw [if_pos (by omega)]
      rfl
  · rw [if_neg hL]
    rw [if_neg (by omega)]

/-- Position access through `zipWith` at an in-range index. -/
theorem getD_zipWith {α β γ : Type} (f : α → β → γ) (as : List α)
    (bs : List β) (i : Nat) (da : α) (db : β) (dc : γ)
    (ha : i < as.length) (hb : i < bs.length) :
    (List.zipWith f as bs).getD i dc = f (as.getD i da) (bs.getD i db) := by
  have h1 := get?_eq_some_getD as i da ha
  have h2 := get?_eq_some_getD bs i db hb
  rw [List.get?_eq_getElem?] at h1 h2
  rw [List.getD_eq_getElem?_getD, List.getElem?_zipWith, h1, h2]
  rfl

/-- C9: in `GptTtsHf.forward`, row `b` of the caller's `mel_targets` tensor
is overwritten with `STOP_MEL_TOKEN` (8193) at every position from
`wav_lengths[b] // mel_length_compression` on, every earlier position keeps
its original code, and no row or row length is otherwise changed (the
overwrite is the in-place mutation of the caller's tensor, embedded as its
post-state). -/
theorem forward_setMelPadding_spec (mlc : Nat) (wavLengths : List Nat)
    (melTargets : List (List Nat)) (b i : Nat)
    (hlen : wavLengths.length = melTargets.length)
    (hb : b < melTargets.length)
    (hi : i < (melTargets.getD b []).length) :
    (forward_setMelPadding mlc wavLengths melTargets).length =
      melTargets.length ∧
    ((forward_setMelPadding mlc wavLengths melTargets).getD b []).length =
      (melTargets.getD b []).length ∧
    ((forward_setMelPadding mlc wavLengths melTargets).getD b []).getD i 0 =
      (if wavLengths.getD b 0 / mlc ≤ i then STOP_MEL_TOKEN
       else (melTargets.getD b []).getD i 0) := by
  have hrow : (forward_setMelPadding mlc wavLengths melTargets).getD b [] =
      padMelRow (wavLengths.getD b 0 / mlc) (melTargets.getD b []) := by
    unfold forward_setMelPadding
    exact getD_zipWith _ wavLengths melTargets b 0 [] [] (by omega) hb
  refine ⟨?_, ?_, ?_⟩
  · unfold forward_setMelPadding
    rw [List.length_zipWith]
    omega
  · rw [hrow, padMelRow_length]
  · rw [hrow, padMelRow_getD _ _ _ hi]

/-- C9 witness: with compression 2, a wav length of 3 and one row
`[5, 6, 7]`, position 2 is overwritten with the stop token and position 0
keeps its code. -/
theorem forward_setMelPadding_witness :
    ([3] : List Nat).length = ([[5, 6, 7]] : List (List Nat)).length ∧
    ((forward_setMelPadding 2 [3] [[5, 6, 7]]).getD 0 []).getD 2 0 =
      STOP_MEL_TOKEN ∧
    ((forward_setMelPadding 2 [3] [[5, 6, 7]]).getD 0 []).getD 0 0 = 5 := by
  have h2 := (forward_setMelPadding_spec 2 [3] [[5, 6, 7]] 0 2 rfl
    (by decide) (by decide)).2.2
  have h0 := (forward_setMelPadding_spec 2 [3] [[5, 6, 7]] 0 0 rfl
    (by decide) (by decide)).2.2
  refine ⟨rfl, ?_, ?_⟩
  · rw [h2]
    decide
  · rw [h0]
    decide

/-! ### Theorems for C7 -/

/-- C7 counterexample: with zero mel inputs, Python's `enc[:, -0:]` slice is
the whole sequence, so the mel logits cover every position (here the one
text position plus the one conditioning position) instead of the zero mel
positions the claim prescribes: their count differs from the mel-input
count. -/
theorem get_logits_zero_mel :
    (exGptTtsSmall.get_logits [5] [[3]] []).2.length ≠
      List.length ([] : List Int) := by
  decide

/-- C7 (amended): provided at least one mel code is fed, `get_logits` feeds
the transformer the concatenation of text embeddings, one conditioning
embedding and mel embeddings in that order, and returns text logits of
`NUMBER_TEXT_TOKENS` (256) channels taken from the first text positions and
mel logits of `NUMBER_MEL_CODES` (8194) channels taken from the last mel
positions of the transformer output (with zero mel inputs the negative
slice instead covers the whole sequence). -/
theorem get_logits_spec (m : GptTtsHf) (textInputs : List Int)
    (condInput : List (List Int)) (melInputs : List Int)
    (hgpt : ∀ l, (m.gpt l).length = l.length)
    (htw : m.textHead.length = NUMBER_TEXT_TOKENS)
    (hmw : m.melHead.length = NUMBER_MEL_CODES)
    (hmel : melInputs ≠ []) :
    (m.get_logits textInputs condInput melInputs).1.length =
      textInputs.length ∧
    (m.get_logits textInputs condInput melInputs).2.length =
      melInputs.length ∧
    (∀ v ∈ (m.get_logits textInputs condInput melInputs).1,
      v.length = NUMBER_TEXT_TOKENS) ∧
    (∀ v ∈ (m.get_logits textInputs condInput melInputs).2,
      v.length = NUMBER_MEL_CODES) ∧
    (∀ i, i < textInputs.length →
      (m.get_logits textInputs condInput melInputs).1.getD i [] =
        linearMap m.textHead (m.finalNorm
          ((m.gpt (textInputs.map m.textEmbedding ++
            [m.conditioningEncoder.forward condInput] ++
            melInputs.map m.melEmbedding)).getD i []))) ∧
    (∀ i, i < melInputs.length →
      (m.get_logits textInputs condInput melInputs).2.getD i [] =
        linearMap m.melHead (m.finalNorm
          ((m.gpt (textInputs.map m.textEmbedding ++
            [m.conditioningEncoder.forward condInput] ++
            melInputs.map m.melEmbedding)).getD
            (textInputs.length + 1 + i) []))) := by
  have hEnc : (m.gpt (textInputs.map m.textEmbedding ++
      [m.conditioningEncoder.forward condInput] ++
      melInputs.map m.melEmbedding)).length =
      textInputs.length + 1 + melInputs.length := by
    rw [hgpt]
    simp only [List.length_append, List.length_map, List.length_cons,
      List.length_nil]
  unfold GptTtsHf.get_logits
  dsimp only
  set enc := m.gpt (textInputs.map m.textEmbedding ++
    [m.conditioningEncoder.forward condInput] ++
    melInputs.map m.melEmbedding) with hencdef
  have htke : (textInputs.map m.textEmbedding).length = textInputs.length :=
    by simp
  have hmke : (melInputs.map m.melEmbedding).length = melInputs.length :=
    by simp
  refine ⟨?_, ?_, ?_, ?_, ?_, ?_⟩
  · rw [List.length_map, List.length_take, htke, hEnc]
    omega
  · unfold takeLast
    rw [if_neg (by rw [hmke]; intro hz; exact hmel (List.length_eq_zero.mp hz))]
    rw [List.length_map, List.length_drop, hmke, hEnc]
    omega
  · intro v hv
    obtain ⟨u, hu, rfl⟩ := List.mem_map.mp hv
    simp only [linearMap, List.length_map, htw]
  · intro v hv
    obtain ⟨u, hu, rfl⟩ := List.mem_map.mp hv
    simp only [linearMap, List.length_map, hmw]
  · intro i hi
    rw [List.getD_eq_getElem?_getD, List.getElem?_map, List.getElem?_take]
    rw [if_pos (by rw [htke]; omega)]
    have henc_i : enc[i]? = some (enc.getD i []) := by
      have h := get?_eq_some_getD enc i [] (by rw [hEnc]; omega)
      rw [List.get?_eq_getElem?] at h
      exact h
    rw [henc_i]
    rfl
  · intro i hi
    unfold takeLast
    rw [if_neg (by rw [hmke]; intro hz; exact hmel (List.length_eq_zero.mp hz))]
    rw [List.getD_eq_getElem?_getD, List.getElem?_map, List.getElem?_drop]
    have hidx : enc.length - (melInputs.map m.melEmbedding).length + i =
        textInputs.length + 1 + i := by
      rw [hEnc, hmke]
      omega
    rw [hidx]
    have henc_i : enc[textInputs.length + 1 + i]? =
        some (enc.getD (textInputs.length + 1 + i) []) := by
      have h := get?_eq_some_getD enc (textInputs.length + 1 + i) []
        (by rw [hEnc]; omega)
      rw [List.get?_eq_getElem?] at h
      exact h
    rw [henc_i]
    rfl

/-- C7 witness: concrete evaluation of the amended theorem on the
1-dimensional instance with full-width heads. -/
theorem get_logits_spec_witness :
    (exGptTtsFull.get_logits [5] [[3]] [7]).1.length = 1 ∧
    (exGptTtsFull.get_logits [5] [[3]] [7]).2.length = 1 := by
  have h := get_logits_spec exGptTtsFull [5] [[3]] [7]
    (fun l => rfl) (by simp [exGptTtsFull]) (by simp [exGptTtsFull])
    (by intro hcontr; cases hcontr)
  exact ⟨h.1, h.2.1⟩

/-! ### Theorems for C10 -/

/-- The sorting indices are pairwise non-increasing in looked-up length. -/
theorem pairwise_idsSortedDecreasing (lengths : List Nat) :
    List.Pairwise (fun a b => lengths.getD b 0 ≤ lengths.getD a 0)
      (idsSortedDecreasing lengths) := by
  unfold idsSortedDecreasing
  have h := @List.sorted_mergeSort Nat
    (fun i j => decide (lengths.getD j 0 ≤ lengths.getD i 0))
    (by
      intro a b c hab hbc
      simp only [decide_eq_true_eq] at hab hbc ⊢
      omega)
    (by
      intro a b
      simp only [Bool.or_eq_true, decide_eq_true_eq]
      omega)
    (List.range lengths.length)
  exact h.imp (fun hab => of_decide_eq_true hab)

/-- The sorting indices are a permutation of the index range. -/
theorem perm_idsSortedDecreasing (lengths : List Nat) :
    (idsSortedDecreasing lengths).Perm (List.range lengths.length) := by
  unfold idsSortedDecreasing
  exact List.mergeSort_perm _ _

/-- C10: on a non-empty batch, the collator reorders the samples by
non-increasing token-sequence length: there is one index permutation `ids`
of the batch such that `text_lengths` is the non-increasing list of the
picked samples' text lengths with the maximum in front, `padded_text` row
`i` is the `ids i`-th sample's text zero-padded to that maximum, and the
`wav`, `wav_lengths`, `filenames` and `real_text` outputs are all permuted
by the same `ids`, so row `i` of every output refers to the same original
sample. -/
theorem TextMelCollate_spec {Cond : Type} (b0 : CollateItem Cond)
    (rest : List (CollateItem Cond)) :
    ∃ (ids : List Nat) (r : CollateResult Cond),
      TextMelCollate.call (b0 :: rest) = some r ∧
      ids.Perm (List.range (b0 :: rest).length) ∧
      r.textLengths = ids.map (fun i =>
        ((b0 :: rest).getD i default).text.length) ∧
      List.Chain' (fun a b => b ≤ a) r.textLengths ∧
      (∀ i, i < (b0 :: rest).length →
        ((b0 :: rest).getD i default).text.length ≤
          r.textLengths.headD 0) ∧
      r.paddedText = ids.map (fun i =>
        padTo (r.textLengths.headD 0) ((b0 :: rest).getD i default).text) ∧
      r.wav = ids.map (fun i => ((b0 :: rest).getD i default).wav.map
        (padTo (((b0 :: rest).map
          (fun x => wavSamples x.wav)).foldl max 0))) ∧
      r.wavLengths = ids.map (fun i =>
        wavSamples ((b0 :: rest).getD i default).wav) ∧
      r.filenames = ids.map (fun i =>
        ((b0 :: rest).getD i default).filename) ∧
      r.realTexts = ids.map (fun i =>
        ((b0 :: rest).getD i default).realText) := by
  have hperm0 := perm_idsSortedDecreasing
    ((b0 :: rest).map (fun x => x.text.length))
  have hLlen : ((b0 :: rest).map (fun x => x.text.length)).length =
      (b0 :: rest).length := by simp
  rw [hLlen] at hperm0
  have hmem : ∀ i ∈ idsSortedDecreasing
      ((b0 :: rest).map (fun x => x.text.length)), i < (b0 :: rest).length := by
    intro i hi
    exact List.mem_range.mp (hperm0.mem_iff.mp hi)
  have hLg : ∀ i, i < (b0 :: rest).length →
      ((b0 :: rest).map (fun x => x.text.length)).getD i 0 =
        ((b0 :: rest).getD i default).text.length := by
    intro i hi
    rw [List.getD_eq_getElem?_getD, List.getElem?_map]
    have h := get?_eq_some_getD (b0 :: rest) i default hi
    rw [List.get?_eq_getElem?] at h
    rw [h]
    rfl
  have hpairG : List.Pairwise (fun a b =>
      ((b0 :: rest).getD b default).text.length ≤
        ((b0 :: rest).getD a default).text.length)
      (idsSortedDecreasing ((b0 :: rest).map (fun x => x.text.length))) := by
    refine (pairwise_idsSortedDecreasing _).imp_of_mem ?_
    intro a b ha hb hab
    rw [hLg a (hmem a ha), hLg b (hmem b hb)] at hab
    exact hab
  have hchain : List.Chain' (fun a b => b ≤ a)
      ((idsSortedDecreasing ((b0 :: rest).map (fun x => x.text.length))).map
        (fun i => ((b0 :: rest).getD i default).text.length)) :=
    (List.pairwise_map.mpr hpairG).chain'
  have hmax : ∀ i, i < (b0 :: rest).length →
      ((b0 :: rest).getD i default).text.length ≤
      ((idsSortedDecreasing ((b0 :: rest).map (fun x => x.text.length))).map
        (fun i => ((b0 :: rest).getD i default).text.length)).headD 0 := by
    cases hids : idsSortedDecreasing
        ((b0 :: rest).map (fun x => x.text.length)) with
    | nil =>
      exfalso
      have hlen := hperm0.length_eq
      rw [hids] at hlen
      rw [List.length_nil, List.length_range, List.length_cons] at hlen
      omega
    | cons i0 tl =>
      intro i hi
      have himem : i ∈ idsSortedDecreasing
          ((b0 :: rest).map (fun x => x.text.length)) :=
        hperm0.mem_iff.mpr (List.mem_range.mpr hi)
      rw [hids] at himem hpairG
      simp only [List.map_cons, List.headD_cons]
      rcases List.mem_cons.mp himem with rfl | hitl
      · exact Nat.le_refl _
      · exact (List.pairwise_cons.mp hpairG).1 i hitl
  refine ⟨idsSortedDecreasing ((b0 :: rest).map (fun x => x.text.length)), _,
    rfl, hperm0, rfl, ?_, ?_, rfl, rfl, rfl, rfl, rfl⟩
  · exact hchain
  · exact hmax

/-- C10 witness: the collator succeeds on a concrete two-sample batch. -/
theorem TextMelCollate_spec_witness :
    (TextMelCollate.call
      [(⟨[2, 3], [[4]], exPath, exText, none⟩ : CollateItem Nat),
       ⟨[5], [[6, 7]], exPath, exText, none⟩]).isSome = true := by
  obtain ⟨ids, r, hcall, _⟩ := TextMelCollate_spec
    (⟨[2, 3], [[4]], exPath, exText, none⟩ : CollateItem Nat)
    [⟨[5], [[6, 7]], exPath, exText, none⟩]
  rw [hcall]
  rfl
